import Mathlib

/-!
Verification of the metric-extraction and scoring engine of the
kabuzokuhenn repository, which ships two variants of the same
`StockAnalyzer` class:

* `StockFixed` embeds `src/stock_analyzer_fixed.py`
* `StockApp`   embeds `src/stock_analyzer_app.py`

Python floats are modelled as rationals (`ℚ`): every claim under study
concerns only comparisons, equalities and absence, never rounding.
Python's `None` is modelled as `Option.none`.  All functions are total:
the source wraps each boundary in `try/except`, so no exception escapes,
which the embedding renders as totality.
-/

/-- Prefix test on character lists (`needle` is a prefix of `hay`). -/
def listPre : List Char → List Char → Bool
  | [], _ => true
  | _ :: _, [] => false
  | a :: n, b :: h => a == b && listPre n h

/-- Occurrence test on character lists (`needle` occurs inside `hay`),
modelling Python's `in` operator on strings. -/
def listSub (needle : List Char) : List Char → Bool
  | [] => listPre needle []
  | b :: h => listPre needle (b :: h) || listSub needle h

/-- Models Python `needle in hay` as `strContains hay needle`. -/
def strContains (hay needle : String) : Bool :=
  listSub needle.data hay.data

/-- ASCII whitespace, the characters Python's `str.strip()` removes on
the inputs under study (its full Unicode whitespace set never occurs in
the cells or labels the claims exercise). -/
def isPyWs (c : Char) : Bool :=
  c == ' ' || c == '\t' || c == '\n' || c == '\r' || c == '\x0b' || c == '\x0c'

/-- Models `str.strip()` on a character list: drop whitespace at both ends. -/
def pyTrim (l : List Char) : List Char :=
  ((l.dropWhile isPyWs).reverse.dropWhile isPyWs).reverse

/-- Numeric value of a digit list, most significant first. -/
def digitsVal (l : List Char) : Nat :=
  l.foldl (fun a c => a * 10 + (c.toNat - 48)) 0

/-- All characters are ASCII digits. -/
def allDigits (l : List Char) : Bool :=
  l.all (fun c => c.isDigit)

/-- Split a character list at the first character satisfying `p`,
returning the parts before and after it. -/
def splitAtChar (p : Char → Bool) : List Char → Option (List Char × List Char)
  | [] => none
  | c :: rest =>
    if p c then some ([], rest)
    else (splitAtChar p rest).map (fun q => (c :: q.1, q.2))

/-- Consume one optional leading sign, returning (isNegative, rest). -/
def parseSign : List Char → Bool × List Char
  | '-' :: rest => (true, rest)
  | '+' :: rest => (false, rest)
  | l => (false, l)

/-- Mantissa of a float literal: digits, optionally with one decimal
point; digits must appear on at least one side of the point. -/
def parseMantissa (l : List Char) : Option ℚ :=
  match splitAtChar (fun c => c == '.') l with
  | none =>
    if !l.isEmpty && allDigits l then some (digitsVal l : ℚ) else none
  | some (ip, fp) =>
    if (!ip.isEmpty || !fp.isEmpty) && allDigits ip && allDigits fp then
      some ((digitsVal ip : ℚ) + (digitsVal fp : ℚ) / ((10 : ℚ) ^ fp.length))
    else none

/-- Exponent part of a float literal: optional sign then digits. -/
def parseExpPart (l : List Char) : Option Int :=
  let s := parseSign l
  if !s.2.isEmpty && allDigits s.2 then
    some (if s.1 then -(digitsVal s.2 : Int) else (digitsVal s.2 : Int))
  else none

/-- Model of Python `float(text)` restricted to finite decimal literals:
optional surrounding whitespace, optional sign, digits with an optional
decimal point, optional exponent.  The `inf`/`nan` spellings and digit
underscores accepted by CPython are outside the model (no input under
study uses them); every other malformed input fails, as `float` does. -/
def pyFloat (cs0 : List Char) : Option ℚ :=
  let cs := pyTrim cs0
  let sg := parseSign cs
  let body :=
    match splitAtChar (fun c => c == 'e' || c == 'E') sg.2 with
    | none => parseMantissa sg.2
    | some (m, e) =>
      match parseMantissa m, parseExpPart e with
      | some mv, some ev => some (mv * (10 : ℚ) ^ ev)
      | _, _ => none
  body.map (fun v => if sg.1 then -v else v)

/-- Models `re.sub(r'[,円億万百千%]', '', text)`: delete every occurrence of a
comma, the unit glyphs, or a percent sign (identical in both variants). -/
def stripUnits (l : List Char) : List Char :=
  l.filter (fun c => !([',', '円', '億', '万', '百', '千', '%'].contains c))

/-- A row is the list of its cell texts; cell 0 is the label. -/
abbrev Row := List String

/-- A table is its list of rows. -/
abbrev Table := List Row

/-- Keep the last `n` elements of a list, modelling Python `l[-n:]`
(the whole list when it is shorter than `n`). -/
def lastN (n : Nat) (l : List α) : List α :=
  l.drop (l.length - n)

/-- Adjacent strict comparison `all(v[i] < v[i+1])`. -/
def pairsLt : List ℚ → Bool
  | a :: b :: rest => decide (a < b) && pairsLt (b :: rest)
  | _ => true

/-- Adjacent weak comparison `all(v[i] <= v[i+1])`. -/
def pairsLe : List ℚ → Bool
  | a :: b :: rest => decide (a ≤ b) && pairsLe (b :: rest)
  | _ => true

/-- The per-criterion score breakdown (`score_details`), nine fixed keys.
`equity` and `payout` stand for the source keys `equity_ratio` and
`payout_ratio`. -/
structure Breakdown where
  revenue : Nat
  eps : Nat
  totalAssets : Nat
  operatingCf : Nat
  cash : Nat
  roe : Nat
  equity : Nat
  dividend : Nat
  payout : Nat
deriving DecidableEq, Repr

/-- Computes `sum(score_details.values())`. -/
def Breakdown.total (b : Breakdown) : Nat :=
  b.revenue + b.eps + b.totalAssets + b.operatingCf + b.cash +
    b.roe + b.equity + b.dividend + b.payout

namespace StockFixed

/-- Embeds `StockAnalyzer._parse_number` of `stock_analyzer_fixed.py`:
strip units, strip whitespace, map the dash glyphs (ASCII hyphen,
U+2212 minus sign, empty string, U+2015 horizontal bar, U+2014 em dash)
to `None`, otherwise attempt `float`; any failure yields `None`. -/
def parseNumberCore (l : List Char) : Option ℚ :=
  let t := pyTrim (stripUnits l)
  if [['-'], ['−'], ([] : List Char), ['―'], ['—']].contains t then none
  else pyFloat t

/-- Wraps `_parse_number` for a string argument. -/
def parseNumber (text : String) : Option ℚ :=
  parseNumberCore text.data

/-- The label test of `_extract_metric`: the row has cells and the
stripped first cell contains one of the metric names. -/
def rowLabelMatches (aliases : List String) : Row → Bool
  | [] => false
  | label :: _ => aliases.any (fun a => listSub a.data (pyTrim label.data))

/-- The value loop of `_extract_metric`: strip each cell after the
label, parse it, and append only the successfully parsed values. -/
def rowValues : List String → List (Option ℚ)
  | [] => []
  | c :: rest =>
    match parseNumberCore (pyTrim c.data) with
    | some num => some num :: rowValues rest
    | none => rowValues rest

/-- The row loop of `_extract_metric`: the first matching row whose
parsed values are non-empty returns its last five values; a matching
row with no parsed values falls through to the next row. -/
def scanRows (aliases : List String) : List Row → Option (List (Option ℚ))
  | [] => none
  | row :: rest =>
    if rowLabelMatches aliases row then
      let values := rowValues row.tail
      if values.isEmpty then scanRows aliases rest
      else some (lastN 5 values)
    else scanRows aliases rest

/-- The table loop of `_extract_metric`. -/
def scanTables (aliases : List String) : List Table → Option (List (Option ℚ))
  | [] => none
  | t :: rest =>
    match scanRows aliases t with
    | some v => some v
    | none => scanTables aliases rest

/-- Embeds `StockAnalyzer._extract_metric` of `stock_analyzer_fixed.py` on the
candidate tables: the scan result, or `[]` when nothing was found. -/
def extractMetric (tables : List Table) (aliases : List String) :
    List (Option ℚ) :=
  (scanTables aliases tables).getD []

/-- A row that terminates the scan: its label matches and at least one
value cell parses. -/
def goodRow (aliases : List String) (row : Row) : Bool :=
  rowLabelMatches aliases row && !(rowValues row.tail).isEmpty

/-- The assembled per-company data object (the `data` dict built by
`fetch_irbank_data`, minus the `company_name` string, which no claim
touches).  Fields appear in the dict's construction order; `equity` and
`payout` stand for the keys `equity_ratio` and `payout_ratio`. -/
structure FinData where
  revenue : List (Option ℚ)
  eps : List (Option ℚ)
  totalAssets : List (Option ℚ)
  operatingCf : List (Option ℚ)
  cash : List (Option ℚ)
  roe : List (Option ℚ)
  equity : List (Option ℚ)
  dividend : List (Option ℚ)
  payout : List (Option ℚ)
  years : List Int
deriving DecidableEq, Repr

/-- Alias lists passed to `_extract_metric` in `fetch_irbank_data`,
in the source's order. -/
def revenueAliases : List String := ["売上高", "経常収益"]

def epsAliases : List String := ["EPS"]

def totalAssetsAliases : List String := ["総資産"]

def operatingCfAliases : List String := ["営業CF", "営業活動によるCF"]

def cashAliases : List String := ["現金等", "現金及び現金同等物"]

def roeAliases : List String := ["ROE", "自己資本利益率"]

def equityAliases : List String := ["自己資本比率"]

def dividendAliases : List String := ["配当", "1株配当"]

def payoutAliases : List String := ["配当性向"]

/-- Computes `list(range(current_year - n + 1, current_year + 1))`: the `n`
consecutive years ending at `current_year` (empty when `n = 0`). -/
def yearsFromLen (currentYear : Int) (n : Nat) : List Int :=
  (List.range n).map (fun (i : Nat) => currentYear - (n : Int) + 1 + (i : Int))

/-- The record construction of `fetch_irbank_data` (its non-exception
path): extract the nine metrics and derive `years` from the length of
the revenue series (`data_length = len(data['revenue'])`). -/
def fetchData (tables : List Table) (currentYear : Int) : FinData :=
  let revenue := extractMetric tables revenueAliases
  ⟨revenue,
   extractMetric tables epsAliases,
   extractMetric tables totalAssetsAliases,
   extractMetric tables operatingCfAliases,
   extractMetric tables cashAliases,
   extractMetric tables roeAliases,
   extractMetric tables equityAliases,
   extractMetric tables dividendAliases,
   extractMetric tables payoutAliases,
   yearsFromLen currentYear revenue.length⟩

/-- The `missing_data` list of `fetch_irbank_data`: the metric keys
whose extracted series is empty, in dict order.  It feeds only a
warning message; construction continues regardless. -/
def missingKeys (d : FinData) : List String :=
  (if d.revenue.isEmpty then ["revenue"] else []) ++
  (if d.eps.isEmpty then ["eps"] else []) ++
  (if d.totalAssets.isEmpty then ["total_assets"] else []) ++
  (if d.operatingCf.isEmpty then ["operating_cf"] else []) ++
  (if d.cash.isEmpty then ["cash"] else []) ++
  (if d.roe.isEmpty then ["roe"] else []) ++
  (if d.equity.isEmpty then ["equity_ratio"] else []) ++
  (if d.dividend.isEmpty then ["dividend"] else []) ++
  (if d.payout.isEmpty then ["payout_ratio"] else [])

/-- Embeds `fetch_irbank_data` as seen by the caller: `none` models the
`except` branch (an exception raised while fetching or parsing the
page, which makes the method return `None`); on `some tables` the
construction always succeeds and yields the record. -/
def fetchIrbankData (fetched : Option (List Table)) (currentYear : Int) :
    Option FinData :=
  fetched.map (fun tables => fetchData tables currentYear)

/-- Computes `[v for v in values if v is not None]`. -/
def presentVals (l : List (Option ℚ)) : List ℚ :=
  l.filterMap id

/-- Embeds `StockAnalyzer._is_increasing` of `stock_analyzer_fixed.py`. -/
def isIncreasing (values : List (Option ℚ)) : Bool :=
  if values.length < 2 then false
  else
    let valid := presentVals values
    if valid.length < 2 then false
    else pairsLt valid

/-- Embeds `StockAnalyzer._is_non_decreasing` of `stock_analyzer_fixed.py`. -/
def isNonDecreasing (values : List (Option ℚ)) : Bool :=
  if values.length < 2 then true
  else
    let valid := presentVals values
    if valid.length < 2 then true
    else pairsLe valid

/-- Embeds `StockAnalyzer.calculate_score` of `stock_analyzer_fixed.py`
(the `debug_info` strings are omitted): each criterion scores its full
weight or 0, guarded by a minimum raw length of 2 (1 for the three
threshold criteria), and the total is the sum. -/
def calculateScore (d : FinData) : Nat × Breakdown :=
  let b : Breakdown :=
    ⟨if 2 ≤ d.revenue.length then
        (if isIncreasing d.revenue then 15 else 0) else 0,
     if 2 ≤ d.eps.length then
        (if isIncreasing d.eps then 15 else 0) else 0,
     if 2 ≤ d.totalAssets.length then
        (if isIncreasing d.totalAssets then 10 else 0) else 0,
     if 2 ≤ d.operatingCf.length then
        (if (presentVals d.operatingCf).all (fun x => decide (0 < x)) &&
            isIncreasing d.operatingCf then 10 else 0) else 0,
     if 2 ≤ d.cash.length then
        (if isIncreasing d.cash then 10 else 0) else 0,
     if 1 ≤ d.roe.length then
        (if (presentVals d.roe).all (fun x => decide (7 ≤ x))
         then 10 else 0) else 0,
     if 1 ≤ d.equity.length then
        (if (presentVals d.equity).all (fun x => decide (50 ≤ x))
         then 10 else 0) else 0,
     if 2 ≤ d.dividend.length then
        (if isNonDecreasing d.dividend then 10 else 0) else 0,
     if 1 ≤ d.payout.length then
        (if (presentVals d.payout).all (fun x => decide (x ≤ 40))
         then 10 else 0) else 0⟩
  (b.total, b)

/-- A record all of whose series are empty. -/
def emptyRec : FinData := ⟨[], [], [], [], [], [], [], [], [], []⟩

end StockFixed

namespace StockApp

/-- Embeds `StockAnalyzer._parse_number` of `stock_analyzer_app.py`: strip
units and whitespace; a non-empty text other than a single ASCII hyphen
is handed to `float`, whose failure (like the hyphen and empty cases)
yields `None`. -/
def parseNumberCore (l : List Char) : Option ℚ :=
  let t := pyTrim (stripUnits l)
  if !t.isEmpty && !(t == ['-']) then pyFloat t else none

/-- The app variant's `_parse_number` on a string argument. -/
def parseNumber (text : String) : Option ℚ :=
  parseNumberCore text.data

/-- The label test of the app variant's `_extract_metric`: the row has
cells and the (unstripped) first cell contains the metric name. -/
def rowLabelMatches (name : String) : Row → Bool
  | [] => false
  | label :: _ => strContains label name

/-- The value loop of the app variant: it reads `cells[1:6]` — only the
first five cells after the label — strips and parses each, and appends
only the successfully parsed values.  The series it builds holds plain
numbers, never `None`. -/
def rowValues : List String → List ℚ
  | [] => []
  | c :: rest =>
    match parseNumberCore (pyTrim c.data) with
    | some num => num :: rowValues rest
    | none => rowValues rest

/-- The row loop of the app variant's `_extract_metric`. -/
def scanRows (name : String) : List Row → Option (List ℚ)
  | [] => none
  | row :: rest =>
    if rowLabelMatches name row then
      let values := rowValues (row.tail.take 5)
      if values.isEmpty then scanRows name rest
      else some (lastN 5 values)
    else scanRows name rest

/-- The table loop of the app variant's `_extract_metric`. -/
def scanTables (name : String) : List Table → Option (List ℚ)
  | [] => none
  | t :: rest =>
    match scanRows name t with
    | some v => some v
    | none => scanTables name rest

/-- The placeholder series the app variant returns when no row matched
(or an exception occurred): `return [100, 110, 120, 130, 140]`. -/
def defaultValues : List ℚ := [100, 110, 120, 130, 140]

/-- Embeds `StockAnalyzer._extract_metric` of `stock_analyzer_app.py`. -/
def extractMetric (tables : List Table) (name : String) : List ℚ :=
  (scanTables name tables).getD defaultValues

/-- A row that terminates the app variant's scan. -/
def goodRow (name : String) (row : Row) : Bool :=
  rowLabelMatches name row && !(rowValues (row.tail.take 5)).isEmpty

/-- The app variant's `data` dict (minus `company_name`): its series
hold plain numbers, as both the extractor and the dummy fallback only
ever store non-`None` floats. -/
structure FinData where
  revenue : List ℚ
  eps : List ℚ
  totalAssets : List ℚ
  operatingCf : List ℚ
  cash : List ℚ
  roe : List ℚ
  equity : List ℚ
  dividend : List ℚ
  payout : List ℚ
  years : List Int
deriving DecidableEq, Repr

/-- Embeds `StockAnalyzer._is_increasing` of `stock_analyzer_app.py`
(no `None` filtering). -/
def isIncreasing (values : List ℚ) : Bool :=
  if values.length < 2 then false else pairsLt values

/-- Embeds `StockAnalyzer._is_non_decreasing` of `stock_analyzer_app.py`
(no `None` filtering). -/
def isNonDecreasing (values : List ℚ) : Bool :=
  if values.length < 2 then true else pairsLe values

/-- Embeds `StockAnalyzer.calculate_score` of `stock_analyzer_app.py`:
no length guards; the three threshold criteria and the operating-CF
positivity test use Python's `all`, vacuously true on empty series. -/
def calculateScore (d : FinData) : Nat × Breakdown :=
  let b : Breakdown :=
    ⟨if isIncreasing d.revenue then 15 else 0,
     if isIncreasing d.eps then 15 else 0,
     if isIncreasing d.totalAssets then 10 else 0,
     if d.operatingCf.all (fun x => decide (0 < x)) &&
        isIncreasing d.operatingCf then 10 else 0,
     if isIncreasing d.cash then 10 else 0,
     if d.roe.all (fun x => decide (7 ≤ x)) then 10 else 0,
     if d.equity.all (fun x => decide (50 ≤ x)) then 10 else 0,
     if isNonDecreasing d.dividend then 10 else 0,
     if d.payout.all (fun x => decide (x ≤ 40)) then 10 else 0⟩
  (b.total, b)

/-- A record all of whose series are empty. -/
def emptyRec : FinData := ⟨[], [], [], [], [], [], [], [], [], []⟩

end StockApp

/-- Follows the spec's words (§4.2/§8): keep only the last five
successfully parsed values among ALL value cells of the winning row.
Used to compare the source's trimming against the spec's policy. -/
def specLastFive (cells : List String) : List ℚ :=
  lastN 5 (cells.filterMap (fun c => StockFixed.parseNumberCore (pyTrim c.data)))

/-- Follows the spec's words (§4.3): the length of the metric series
with the most populated entries among the nine. -/
def specLongestLen (d : StockFixed.FinData) : Nat :=
  [d.revenue.length, d.eps.length, d.totalAssets.length,
   d.operatingCf.length, d.cash.length, d.roe.length,
   d.equity.length, d.dividend.length, d.payout.length].foldr max 0

/-- Lemma: `pairsLt` is the adjacent-pairs chain of strict comparisons. -/
theorem pairsLt_iff : (l : List ℚ) →
    (pairsLt l = true ↔ List.Chain' (fun a b => a < b) l)
  | [] => by simp [pairsLt]
  | [a] => by simp [pairsLt]
  | a :: b :: t => by
    have ih := pairsLt_iff (b :: t)
    simp [pairsLt, List.chain'_cons, ih]

/-- Lemma: `pairsLe` is the adjacent-pairs chain of weak comparisons. -/
theorem pairsLe_iff : (l : List ℚ) →
    (pairsLe l = true ↔ List.Chain' (fun a b => a ≤ b) l)
  | [] => by simp [pairsLe]
  | [a] => by simp [pairsLe]
  | a :: b :: t => by
    have ih := pairsLe_iff (b :: t)
    simp [pairsLe, List.chain'_cons, ih]

/-- A Python `l[-n:]` slice never exceeds `n` elements. -/
theorem lastN_length_le (n : Nat) (l : List α) : (lastN n l).length ≤ n := by
  simp only [lastN, List.length_drop]
  omega

/-- Lemma: `lastN` commutes with `map`. -/
theorem lastN_map (n : Nat) (f : α → β) (l : List α) :
    lastN n (l.map f) = (lastN n l).map f := by
  simp [lastN, List.map_drop]

/-- The value loop of the fixed variant collects exactly the
successfully parsed cells, each wrapped in `some`. -/
theorem StockFixed.fixedRowValues_eq : (cells : List String) →
    StockFixed.rowValues cells =
      (cells.filterMap (fun c => StockFixed.parseNumberCore (pyTrim c.data))).map some
  | [] => rfl
  | c :: rest => by
    have ih := StockFixed.fixedRowValues_eq rest
    cases h : StockFixed.parseNumberCore (pyTrim c.data) <;>
      simp [StockFixed.rowValues, h, ih]

/-- The row loop of the fixed variant returns the trimmed values of the
first row that matches an alias and parses to a non-empty value list. -/
theorem StockFixed.fixedScanRows_eq_find (aliases : List String) :
    (rows : List Row) →
      StockFixed.scanRows aliases rows =
        (rows.find? (StockFixed.goodRow aliases)).map
          (fun r => lastN 5 (StockFixed.rowValues r.tail))
  | [] => rfl
  | row :: rest => by
    have ih := StockFixed.fixedScanRows_eq_find aliases rest
    by_cases hm : StockFixed.rowLabelMatches aliases row = true
    · by_cases he : (StockFixed.rowValues row.tail).isEmpty = true
      · have hg : StockFixed.goodRow aliases row = false := by
          simp [StockFixed.goodRow, hm, he]
        rw [List.find?_cons_of_neg _ (by simp [hg])]
        simp [StockFixed.scanRows, hm, he, ih]
      · have hg : StockFixed.goodRow aliases row = true := by
          simp only [StockFixed.goodRow, hm, Bool.true_and, Bool.not_eq_true']
          simpa using he
        rw [List.find?_cons_of_pos _ hg]
        simp [StockFixed.scanRows, hm, he]
    · have hm' : StockFixed.rowLabelMatches aliases row = false := by
        simpa using hm
      have hg : StockFixed.goodRow aliases row = false := by
        simp [StockFixed.goodRow, hm']
      rw [List.find?_cons_of_neg _ (by simp [hg])]
      simp [StockFixed.scanRows, hm', ih]

/-- The table loop of the fixed variant scans the concatenation of all
tables' rows in order. -/
theorem StockFixed.fixedScanTables_eq_find (aliases : List String) :
    (tables : List Table) →
      StockFixed.scanTables aliases tables =
        ((tables.flatten).find? (StockFixed.goodRow aliases)).map
          (fun r => lastN 5 (StockFixed.rowValues r.tail))
  | [] => rfl
  | t :: rest => by
    have ih := StockFixed.fixedScanTables_eq_find aliases rest
    have hr := StockFixed.fixedScanRows_eq_find aliases t
    simp only [StockFixed.scanTables, hr, ih, List.flatten_cons, List.find?_append]
    cases t.find? (StockFixed.goodRow aliases) <;> simp [Option.or]

/-- Characterizes `_extract_metric` of the fixed variant: the first row (tables in
order, rows in order) whose label matches an alias and whose value
cells parse to a non-empty list wins and is trimmed to its last five
values; absent such a row, the result is `[]`. -/
theorem StockFixed.fixedExtract_eq_find (tables : List Table) (aliases : List String) :
    StockFixed.extractMetric tables aliases =
      ((tables.flatten).find? (StockFixed.goodRow aliases)).elim []
        (fun r => lastN 5 (StockFixed.rowValues r.tail)) := by
  simp only [StockFixed.extractMetric, StockFixed.fixedScanTables_eq_find]
  cases (tables.flatten).find? (StockFixed.goodRow aliases) <;> rfl

/-- The value loop of the app variant collects exactly the successfully
parsed cells among those handed to it. -/
theorem StockApp.appRowValues_eq : (cells : List String) →
    StockApp.rowValues cells =
      cells.filterMap (fun c => StockApp.parseNumberCore (pyTrim c.data))
  | [] => rfl
  | c :: rest => by
    have ih := StockApp.appRowValues_eq rest
    cases h : StockApp.parseNumberCore (pyTrim c.data) <;>
      simp [StockApp.rowValues, h, ih]

/-- The row loop of the app variant. -/
theorem StockApp.appScanRows_eq_find (name : String) :
    (rows : List Row) →
      StockApp.scanRows name rows =
        (rows.find? (StockApp.goodRow name)).map
          (fun r => lastN 5 (StockApp.rowValues (r.tail.take 5)))
  | [] => rfl
  | row :: rest => by
    have ih := StockApp.appScanRows_eq_find name rest
    by_cases hm : StockApp.rowLabelMatches name row = true
    · by_cases he : (StockApp.rowValues (row.tail.take 5)).isEmpty = true
      · have hg : StockApp.goodRow name row = false := by
          simp [StockApp.goodRow, hm, he]
        rw [List.find?_cons_of_neg _ (by simp [hg])]
        simp [StockApp.scanRows, hm, he, ih]
      · have hg : StockApp.goodRow name row = true := by
          simp only [StockApp.goodRow, hm, Bool.true_and, Bool.not_eq_true']
          simpa using he
        rw [List.find?_cons_of_pos _ hg]
        simp [StockApp.scanRows, hm, he]
    · have hm' : StockApp.rowLabelMatches name row = false := by
        simpa using hm
      have hg : StockApp.goodRow name row = false := by
        simp [StockApp.goodRow, hm']
      rw [List.find?_cons_of_neg _ (by simp [hg])]
      simp [StockApp.scanRows, hm', ih]

/-- The table loop of the app variant. -/
theorem StockApp.appScanTables_eq_find (name : String) :
    (tables : List Table) →
      StockApp.scanTables name tables =
        ((tables.flatten).find? (StockApp.goodRow name)).map
          (fun r => lastN 5 (StockApp.rowValues (r.tail.take 5)))
  | [] => rfl
  | t :: rest => by
    have ih := StockApp.appScanTables_eq_find name rest
    have hr := StockApp.appScanRows_eq_find name t
    simp only [StockApp.scanTables, hr, ih, List.flatten_cons, List.find?_append]
    cases t.find? (StockApp.goodRow name) <;> simp [Option.or]

/-- Characterizes `_extract_metric` of the app variant: like the fixed variant, but
only the first five value cells are examined and a miss returns the
placeholder series. -/
theorem StockApp.appExtract_eq_find (tables : List Table) (name : String) :
    StockApp.extractMetric tables name =
      ((tables.flatten).find? (StockApp.goodRow name)).elim
        StockApp.defaultValues
        (fun r => lastN 5 (StockApp.rowValues (r.tail.take 5))) := by
  simp only [StockApp.extractMetric, StockApp.appScanTables_eq_find]
  cases (tables.flatten).find? (StockApp.goodRow name) <;> rfl

/-- Claim C6: `nonDecreasing(seq)` is true iff the present (non-absent)
subsequence has length at least 2 and each element is at most its
successor, and is vacuously true when fewer than 2 present values
exist; in particular it is true on `[]` and `[5]` and false on `[3,2]`
(shown for the fixed variant's predicate on optional values and the app
variant's predicate on plain values). -/
theorem claim_C6_nonDecreasing :
    (∀ seq : List (Option ℚ),
        StockFixed.isNonDecreasing seq = true ↔
          ((seq.filterMap id).length < 2 ∨
            List.Chain' (fun a b => a ≤ b) (seq.filterMap id))) ∧
    StockFixed.isNonDecreasing [] = true ∧
    StockFixed.isNonDecreasing [some 5] = true ∧
    StockFixed.isNonDecreasing [some 3, some 2] = false ∧
    StockApp.isNonDecreasing [] = true ∧
    StockApp.isNonDecreasing [(5 : ℚ)] = true ∧
    StockApp.isNonDecreasing [3, 2] = false := by
  refine ⟨fun seq => ?_, by decide, by decide, by decide, by decide, by decide, by decide⟩
  by_cases h1 : seq.length < 2
  · have h2 : (seq.filterMap id).length < 2 :=
      lt_of_le_of_lt (List.length_filterMap_le _ _) h1
    simp [StockFixed.isNonDecreasing, h1, h2]
  · by_cases h2 : (seq.filterMap id).length < 2
    · simp [StockFixed.isNonDecreasing, StockFixed.presentVals, h1, h2]
    · simp [StockFixed.isNonDecreasing, StockFixed.presentVals, h1, h2, pairsLe_iff]

/-- Claim C7: `strictlyIncreasing(seq)` is true iff the present
subsequence has length at least 2 and each element is strictly less
than its successor, and is false (not an error) when fewer than 2
present values exist; in particular it is false on `[]`, `[5]` and
`[1,1,2]` and true on `[1,2,3]` (shown for both variants). -/
theorem claim_C7_strictlyIncreasing :
    (∀ seq : List (Option ℚ),
        StockFixed.isIncreasing seq = true ↔
          (2 ≤ (seq.filterMap id).length ∧
            List.Chain' (fun a b => a < b) (seq.filterMap id))) ∧
    StockFixed.isIncreasing [] = false ∧
    StockFixed.isIncreasing [some 5] = false ∧
    StockFixed.isIncreasing [some 1, some 2, some 3] = true ∧
    StockFixed.isIncreasing [some 1, some 1, some 2] = false ∧
    StockApp.isIncreasing [] = false ∧
    StockApp.isIncreasing [(5 : ℚ)] = false ∧
    StockApp.isIncreasing [1, 2, 3] = true ∧
    StockApp.isIncreasing [1, 1, 2] = false := by
  refine ⟨fun seq => ?_, by decide, by decide, by decide, by decide,
    by decide, by decide, by decide, by decide⟩
  by_cases h1 : seq.length < 2
  · have h2 : (seq.filterMap id).length < 2 :=
      lt_of_le_of_lt (List.length_filterMap_le _ _) h1
    simp [StockFixed.isIncreasing, h1]
    omega
  · by_cases h2 : (seq.filterMap id).length < 2
    · simp only [StockFixed.isIncreasing, StockFixed.presentVals, h1, if_false,
        if_pos h2, Bool.false_eq_true, false_iff, not_and]
      intro hc
      exact absurd hc (by omega)
    · simp only [StockFixed.isIncreasing, StockFixed.presentVals, h1, if_false,
        if_neg h2, pairsLt_iff, iff_and_self]
      omega

/-- Claim C9: the fixed variant's `_parse_number` returns absent — never
`0`, and (being total) without raising — on the ASCII hyphen, the
full-width minus U+2212, the em-dash U+2014, the en-dash U+2013, the
horizontal bar U+2015 used by the source, and the empty string. -/
theorem claim_C9_parse_dashes :
    StockFixed.parseNumber "-" = none ∧
    StockFixed.parseNumber "−" = none ∧
    StockFixed.parseNumber "—" = none ∧
    StockFixed.parseNumber "–" = none ∧
    StockFixed.parseNumber "―" = none ∧
    StockFixed.parseNumber "" = none := by
  decide

/-- Claim C10: every series returned by the fixed variant's metric
extraction contains only present values — `none` never occurs in it —
so the `None`-filtering step inside the trend predicates removes
nothing from an extracted series. -/
theorem claim_C10_no_absent_entries :
    ∀ (tables : List Table) (aliases : List String),
      (∀ x ∈ StockFixed.extractMetric tables aliases, x ≠ none) ∧
      ((StockFixed.extractMetric tables aliases).filterMap id).map some =
        StockFixed.extractMetric tables aliases := by
  intro tables aliases
  rw [StockFixed.fixedExtract_eq_find]
  cases (tables.flatten).find? (StockFixed.goodRow aliases) with
  | none => simp
  | some r =>
    rw [Option.elim_some, StockFixed.fixedRowValues_eq, lastN_map]
    constructor
    · intro x hx
      rcases List.mem_map.mp hx with ⟨q, _, rfl⟩
      exact Option.some_ne_none q
    · rw [List.filterMap_map]
      simp

/-- Claim C1 counterexample: in the fixed variant a record whose
extracted dividend series is empty (here: no table matched, so every
series is empty) is awarded 0 dividend points, not the claimed 10. -/
theorem claim_C1_counterexample :
    (StockFixed.calculateScore (StockFixed.fetchData [] 2026)).2.dividend ≠ 10 := by
  decide

/-- Claim C1 amended: in the fixed variant the dividend criterion is
not exempt — a record with `dividend = []` scores 0 for dividend, and
the all-empty record scores 0 on every criterion.  In the app variant
`dividend = []` does score its full 10 (vacuous pass), but so do empty
`roe`, `equity_ratio` and `payout_ratio` series, and the all-empty
record scores 40, not 10. -/
theorem claim_C1_amended :
    (∀ d : StockFixed.FinData, d.dividend = [] →
        (StockFixed.calculateScore d).2.dividend = 0) ∧
    (∀ d : StockApp.FinData, d.dividend = [] →
        (StockApp.calculateScore d).2.dividend = 10) ∧
    (∀ d : StockApp.FinData, d.roe = [] →
        (StockApp.calculateScore d).2.roe = 10) ∧
    (∀ d : StockApp.FinData, d.equity = [] →
        (StockApp.calculateScore d).2.equity = 10) ∧
    (∀ d : StockApp.FinData, d.payout = [] →
        (StockApp.calculateScore d).2.payout = 10) ∧
    StockFixed.calculateScore StockFixed.emptyRec = (0, ⟨0, 0, 0, 0, 0, 0, 0, 0, 0⟩) ∧
    StockApp.calculateScore StockApp.emptyRec = (40, ⟨0, 0, 0, 0, 0, 10, 10, 10, 10⟩) := by
  refine ⟨fun d h => ?_, fun d h => ?_, fun d h => ?_, fun d h => ?_, fun d h => ?_,
    by decide, by decide⟩
  · simp [StockFixed.calculateScore, h]
  · simp [StockApp.calculateScore, StockApp.isNonDecreasing, h]
  · simp [StockApp.calculateScore, h]
  · simp [StockApp.calculateScore, h]
  · simp [StockApp.calculateScore, h]

/-- Claim C1 witness: the amended statement instantiated at the
all-empty records of both variants. -/
theorem claim_C1_witness :
    (StockFixed.calculateScore StockFixed.emptyRec).2.dividend = 0 ∧
    (StockApp.calculateScore StockApp.emptyRec).2.dividend = 10 ∧
    (StockApp.calculateScore StockApp.emptyRec).2.roe = 10 ∧
    (StockApp.calculateScore StockApp.emptyRec).2.equity = 10 ∧
    (StockApp.calculateScore StockApp.emptyRec).2.payout = 10 :=
  ⟨claim_C1_amended.1 StockFixed.emptyRec rfl,
   claim_C1_amended.2.1 StockApp.emptyRec rfl,
   claim_C1_amended.2.2.1 StockApp.emptyRec rfl,
   claim_C1_amended.2.2.2.1 StockApp.emptyRec rfl,
   claim_C1_amended.2.2.2.2.1 StockApp.emptyRec rfl⟩

/-- Claim C2 counterexample: with every metric empty (no tables), the
fixed variant's construction still returns a record — with zero-length
`years` — and scoring it proceeds, yielding total 0; no failure is
surfaced to the caller. -/
theorem claim_C2_counterexample :
    (StockFixed.fetchIrbankData (some []) 2026).isSome = true ∧
    (StockFixed.fetchData [] 2026).years = [] ∧
    (StockFixed.calculateScore (StockFixed.fetchData [] 2026)).1 = 0 := by
  decide

/-- Claim C2 amended: when every one of the nine metric series is
empty, record construction does not fail: `fetch_irbank_data` only
collects the nine metric keys into a warning list and returns the
record, whose `years` is empty; the record is then scored (total 0 in
the fixed variant).  The construction returns `None` only when an
exception occurs during fetching or parsing, which the model renders
as the `none` input case. -/
theorem claim_C2_amended :
    ∀ y : Int,
      StockFixed.fetchIrbankData (some []) y = some (StockFixed.fetchData [] y) ∧
      (StockFixed.fetchData [] y).years = [] ∧
      StockFixed.missingKeys (StockFixed.fetchData [] y) =
        ["revenue", "eps", "total_assets", "operating_cf", "cash",
         "roe", "equity_ratio", "dividend", "payout_ratio"] ∧
      StockFixed.calculateScore (StockFixed.fetchData [] y) =
        (0, ⟨0, 0, 0, 0, 0, 0, 0, 0, 0⟩) ∧
      StockFixed.fetchIrbankData none y = none :=
  fun _ => ⟨rfl, rfl, rfl, rfl, rfl⟩

/-- Claim C3 counterexample: for a table whose only metric is a
one-entry EPS series, the longest populated series has length 1, yet
the constructed record's `years` has length 0 — `years` is derived from
the revenue series alone, not from the longest series. -/
theorem claim_C3_counterexample :
    (StockFixed.fetchData [[["EPS", "5"]]] 2026).years.length ≠
      specLongestLen (StockFixed.fetchData [[["EPS", "5"]]] 2026) := by
  decide

/-- The derived year range always has exactly the requested length. -/
theorem yearsFromLen_length (y : Int) (n : Nat) :
    (StockFixed.yearsFromLen y n).length = n := by
  rw [StockFixed.yearsFromLen, List.length_map, List.length_range]

/-- Claim C3 amended: for every constructed record,
`years = [current_year - L + 1 .. current_year]` where `L` is the
length of the revenue series specifically (the first metric in the
canonical order), regardless of the other eight series; consequently
`len(years)` equals `len(revenue)`, not the length of the longest
populated series. -/
theorem claim_C3_amended :
    ∀ (tables : List Table) (y : Int),
      (StockFixed.fetchData tables y).years =
        StockFixed.yearsFromLen y (StockFixed.fetchData tables y).revenue.length ∧
      (StockFixed.fetchData tables y).years.length =
        (StockFixed.fetchData tables y).revenue.length :=
  fun tables y =>
    ⟨rfl, yearsFromLen_length y _⟩

/-- Claim C4 counterexample: two rows both match the alias `配当`; the
first matching row's value cells all fail to parse, and the returned
series is the second row's values — it is not the first matching row's
(empty) parsed values, and it does depend on the second row's content. -/
theorem claim_C4_counterexample :
    StockFixed.rowValues ["-"] = [] ∧
    StockFixed.extractMetric [[["配当", "-"], ["配当", "5"]]] ["配当"] = [some 5] ∧
    StockFixed.extractMetric [[["配当", "-"], ["配当", "7"]]] ["配当"] = [some 7] ∧
    ([some (5 : ℚ)] : List (Option ℚ)) ≠ [some 7] := by
  decide

/-- Claim C4 amended: extraction is first-match-wins among rows that
yield at least one parsed value: iterating tables in given order and
rows in given order, the first row whose label cell contains an alias
AND whose value cells parse to a non-empty list determines the result
(trimmed to its last five values); a matching row whose value cells all
fail to parse is skipped and the scan continues. -/
theorem claim_C4_amended :
    ∀ (tables : List Table) (aliases : List String),
      StockFixed.extractMetric tables aliases =
        ((tables.flatten).find? (StockFixed.goodRow aliases)).elim []
          (fun r => lastN 5 (StockFixed.rowValues r.tail)) :=
  StockFixed.fixedExtract_eq_find

/-- Claim C5 counterexample: in the app variant, extraction over an
empty table collection (no row matches) returns the placeholder series
`[100, 110, 120, 130, 140]`, not an empty sequence. -/
theorem claim_C5_counterexample :
    StockApp.extractMetric [] "配当" = [100, 110, 120, 130, 140] ∧
    StockApp.extractMetric [] "配当" ≠ [] := by
  decide

/-- Claim C5 amended: when no row's label matches any alias or every
value cell of each matching row fails to parse, the fixed variant
returns the empty sequence (metric unavailable), while the app variant
returns the placeholder series `[100, 110, 120, 130, 140]`; in both
variants extraction is total (the source catches every exception). -/
theorem claim_C5_amended :
    (∀ (tables : List Table) (aliases : List String),
        ((tables.flatten).all (fun r => !StockFixed.goodRow aliases r)) = true →
          StockFixed.extractMetric tables aliases = []) ∧
    (∀ (tables : List Table) (name : String),
        ((tables.flatten).all (fun r => !StockApp.goodRow name r)) = true →
          StockApp.extractMetric tables name = StockApp.defaultValues) := by
  constructor
  · intro tables aliases h
    rw [StockFixed.fixedExtract_eq_find, List.find?_eq_none.mpr, Option.elim_none]
    intro x hx
    have := List.all_eq_true.mp h x hx
    simp_all
  · intro tables name h
    rw [StockApp.appExtract_eq_find, List.find?_eq_none.mpr, Option.elim_none]
    intro x hx
    have := List.all_eq_true.mp h x hx
    simp_all

/-- Claim C5 witness: the amended statement instantiated on a table
whose single row matches no alias. -/
theorem claim_C5_witness :
    StockFixed.extractMetric [[["abc", "1"]]] ["配当"] = [] ∧
    StockApp.extractMetric [[["abc", "1"]]] "配当" = StockApp.defaultValues :=
  ⟨claim_C5_amended.1 [[["abc", "1"]]] ["配当"] (by decide),
   claim_C5_amended.2 [[["abc", "1"]]] "配当" (by decide)⟩

/-- Claim C8 counterexample: for a winning row with six parseable value
cells, the app variant examines only the first five cells and returns
`[1,2,3,4,5]`, not the last five successfully parsed values
`[2,3,4,5,6]` required by the claim (and returned by the fixed
variant on the same input). -/
theorem claim_C8_counterexample :
    StockApp.extractMetric [[["配当", "1", "2", "3", "4", "5", "6"]]] "配当" =
      [1, 2, 3, 4, 5] ∧
    specLastFive ["1", "2", "3", "4", "5", "6"] = [2, 3, 4, 5, 6] ∧
    StockApp.extractMetric [[["配当", "1", "2", "3", "4", "5", "6"]]] "配当" ≠
      specLastFive ["1", "2", "3", "4", "5", "6"] ∧
    StockFixed.extractMetric [[["配当", "1", "2", "3", "4", "5", "6"]]] ["配当"] =
      [some 2, some 3, some 4, some 5, some 6] := by
  decide

/-- Claim C8 amended: only the fixed variant implements the stated
policy — it parses every value cell after the label, drops parse
failures silently, and keeps exactly the last five successfully parsed
values of the winning row.  The app variant examines only the first
five value cells after the label and keeps all of their parsed values,
as the counterexample shows.  In both variants the returned series has
length at most 5. -/
theorem claim_C8_amended :
    (∀ (tables : List Table) (aliases : List String),
        StockFixed.extractMetric tables aliases =
          ((tables.flatten).find? (StockFixed.goodRow aliases)).elim []
            (fun r => (specLastFive r.tail).map some)) ∧
    (∀ (tables : List Table) (aliases : List String),
        (StockFixed.extractMetric tables aliases).length ≤ 5) ∧
    (∀ (tables : List Table) (name : String),
        (StockApp.extractMetric tables name).length ≤ 5) ∧
    StockApp.extractMetric [[["配当", "1", "2", "3", "4", "5", "6"]]] "配当" =
      [1, 2, 3, 4, 5] := by
  have hfix : ∀ (tables : List Table) (aliases : List String),
      StockFixed.extractMetric tables aliases =
        ((tables.flatten).find? (StockFixed.goodRow aliases)).elim []
          (fun r => (specLastFive r.tail).map some) := by
    intro tables aliases
    rw [StockFixed.fixedExtract_eq_find]
    cases (tables.flatten).find? (StockFixed.goodRow aliases) with
    | none => rfl
    | some r =>
      simp only [Option.elim_some, StockFixed.fixedRowValues_eq, specLastFive, lastN_map]
  refine ⟨hfix, fun tables aliases => ?_, fun tables name => ?_, by decide⟩
  · rw [hfix]
    cases (tables.flatten).find? (StockFixed.goodRow aliases) with
    | none => simp
    | some r =>
      simp only [Option.elim_some, List.length_map, specLastFive]
      exact lastN_length_le 5 _
  · rw [StockApp.appExtract_eq_find]
    cases (tables.flatten).find? (StockApp.goodRow name) with
    | none => decide
    | some r =>
      simp only [Option.elim_some]
      exact lastN_length_le 5 _
